import Mathlib

/-!
Shallow embedding of `milvus_fake_data.milvus_inserter` (MilvusInserter):
field-type registry, vector codec, schema translator, row projector and the
batch insertion pipeline, together with theorems checking the specification's
claims against this embedding.
-/

namespace MilvusInserter

/-- Python values as they occur in dataframe cells and records.
`none` is Python `None`; `nan` is a float NaN; `timestamp` models a pandas
`Timestamp` (an object with `to_pydatetime`); `datetime` a plain
`datetime.datetime`; `list` a Python list or numpy numeric array;
`bytes` a raw byte string; `strDict`/`intDict` dictionaries keyed by strings
resp. integers (association lists in insertion order); `f16array`/`bf16array`
a numpy array obtained by viewing the given bytes as float16 resp.
ml_dtypes.bfloat16 (the raw byte pattern is kept, as `.view` does). -/
inductive PyVal where
  | none
  | nan
  | bool (b : Bool)
  | int (n : Int)
  | float (q : Rat)
  | str (s : String)
  | timestamp (t : Int)
  | datetime (t : Int)
  | list (xs : List PyVal)
  | bytes (bs : List Nat)
  | strDict (entries : List (String × PyVal))
  | intDict (entries : List (Int × PyVal))
  | f16array (bs : List Nat)
  | bf16array (bs : List Nat)

/-- Python `v is None`. -/
def PyVal.isNone : PyVal → Bool
  | .none => true
  | _ => false

/-- The Milvus native type enumeration (`pymilvus.DataType`), restricted to
the constants the module uses. -/
inductive DataType where
  | BOOL | INT8 | INT16 | INT32 | INT64 | FLOAT | DOUBLE | VARCHAR | JSON
  | ARRAY | FLOAT_VECTOR | BINARY_VECTOR | FLOAT16_VECTOR | BFLOAT16_VECTOR
  | SPARSE_FLOAT_VECTOR
deriving DecidableEq, Repr

/-- Does the second character list start with the first one? -/
def startsWithChars : List Char → List Char → Bool
  | [], _ => true
  | _ :: _, [] => false
  | c :: cs, d :: ds => c == d && startsWithChars cs ds

/-- Does the character list contain the pattern as a contiguous sublist? -/
def hasSubChars (pat : List Char) : List Char → Bool
  | [] => startsWithChars pat []
  | d :: ds => startsWithChars pat (d :: ds) || hasSubChars pat ds

/-- Python `pat in s` substring containment, over the character lists. -/
def containsSubstr (s pat : String) : Bool :=
  hasSubChars pat.data s.data

/-- `MilvusInserter._get_milvus_datatype`: map a field type string to the
Milvus `DataType`; raises `ValueError` (modelled as `Except.error`) on any
string outside the 16-entry table. -/
def getMilvusDatatype (fieldType : String) : Except String DataType :=
  if fieldType = "Bool" then .ok .BOOL
  else if fieldType = "Int8" then .ok .INT8
  else if fieldType = "Int16" then .ok .INT16
  else if fieldType = "Int32" then .ok .INT32
  else if fieldType = "Int64" then .ok .INT64
  else if fieldType = "Float" then .ok .FLOAT
  else if fieldType = "Double" then .ok .DOUBLE
  else if fieldType = "String" then .ok .VARCHAR
  else if fieldType = "VarChar" then .ok .VARCHAR
  else if fieldType = "JSON" then .ok .JSON
  else if fieldType = "Array" then .ok .ARRAY
  else if fieldType = "FloatVector" then .ok .FLOAT_VECTOR
  else if fieldType = "BinaryVector" then .ok .BINARY_VECTOR
  else if fieldType = "Float16Vector" then .ok .FLOAT16_VECTOR
  else if fieldType = "BFloat16Vector" then .ok .BFLOAT16_VECTOR
  else if fieldType = "SparseFloatVector" then .ok .SPARSE_FLOAT_VECTOR
  else .error ("Unknown field type: " ++ fieldType)

/-- Accumulator pass over the digits of a decimal literal; any non-digit
character makes the parse fail. -/
def pyNatOfDigits : List Char → Nat → Option Nat
  | [], acc => Option.some acc
  | c :: cs, acc =>
    if c.isDigit then pyNatOfDigits cs (acc * 10 + (c.toNat - 48))
    else Option.none

/-- Python `int(k)` on the decimal-string domain the sparse codec feeds it:
an optionally signed nonempty digit string; other strings raise
`ValueError`, modelled as `Option.none`. -/
def pyIntOfString (s : String) : Option Int :=
  match s.data with
  | [] => Option.none
  | '-' :: [] => Option.none
  | '-' :: c :: cs =>
    if c.isDigit then (pyNatOfDigits (c :: cs) 0).map (fun n => -(n : Int))
    else Option.none
  | '+' :: [] => Option.none
  | '+' :: c :: cs =>
    if c.isDigit then (pyNatOfDigits (c :: cs) 0).map (fun n => (n : Int))
    else Option.none
  | c :: cs =>
    if c.isDigit then (pyNatOfDigits (c :: cs) 0).map (fun n => (n : Int))
    else Option.none

/-- numpy coercion of one Python scalar to `uint8` (wraparound for ints,
`True`/`False` to 1/0, floats truncated toward zero); non-numeric elements
make `np.array(.., dtype=np.uint8)` raise. -/
def toUint8 : PyVal → Except String Nat
  | .bool b => .ok (if b then 1 else 0)
  | .int n => .ok ((n % 256).toNat)
  | .float q => .ok (((q.num / q.den) % 256).toNat)
  | _ => .error "invalid conversion to uint8"

/-- `np.array(vector_data, dtype=np.uint8)` on a Python list of scalars. -/
def mapUint8 (xs : List PyVal) : Except String (List Nat) :=
  xs.mapM toUint8

/-- Python dict assignment `d[k] = v` on an insertion-ordered association
list: overwrite in place when the key exists, append otherwise. -/
def dictInsert {α β : Type} [DecidableEq α] : List (α × β) → α → β → List (α × β)
  | [], k, v => [(k, v)]
  | kv :: rest, k, v =>
    if kv.1 = k then (k, v) :: rest else kv :: dictInsert rest k v

/-- The dict comprehension
`\x7bint(k): v for k, v in vector_data.items() if v is not None\x7d` of
`_convert_single_vector_data`: entries with value `None` are dropped (their
key is never parsed), every kept key is parsed as an integer (raising on a
non-numeric key), and the kept weight is stored unchanged. -/
def sparseFromEntries : List (String × PyVal) → List (Int × PyVal) →
    Except String (List (Int × PyVal))
  | [], acc => .ok acc
  | (k, v) :: rest, acc =>
    if v.isNone then sparseFromEntries rest acc
    else
      match pyIntOfString k with
      | Option.some n => sparseFromEntries rest (dictInsert acc n v)
      | Option.none => .error ("invalid literal for int() with base 10: " ++ k)

/-- `MilvusInserter._convert_single_vector_data`. Python lists and numpy
numeric arrays are both modelled by `PyVal.list`; `mlDtypesAvailable` models
whether `import ml_dtypes` succeeds. When it fails the source logs an error
and returns the raw value unchanged. -/
def convertSingleVectorData (vectorData : PyVal) (fieldType : String)
    (mlDtypesAvailable : Bool) : Except String PyVal :=
  if fieldType = "Float16Vector" then
    match vectorData with
    | .list xs => (mapUint8 xs).map PyVal.f16array
    | _ => .ok vectorData
  else if fieldType = "BFloat16Vector" then
    if mlDtypesAvailable then
      match vectorData with
      | .list xs => (mapUint8 xs).map PyVal.bf16array
      | _ => .ok vectorData
    else .ok vectorData
  else if fieldType = "BinaryVector" then
    match vectorData with
    | .list xs => (mapUint8 xs).map PyVal.bytes
    | _ => .ok vectorData
  else if fieldType = "SparseFloatVector" then
    match vectorData with
    | .strDict entries => (sparseFromEntries entries []).map PyVal.intDict
    | _ => .ok vectorData
  else .ok vectorData

/-- One entry of `metadata["schema"]["fields"]`: a field dict with the keys
the module reads, absent keys modelled by `Option.none` / the `get` default. -/
structure FieldInfo where
  name : String
  type : String
  dim : Option Nat := Option.none
  max_length : Option Nat := Option.none
  max_capacity : Option Nat := Option.none
  element_type : Option String := Option.none
  is_primary : Bool := false
  auto_id : Bool := false
deriving DecidableEq, Repr

/-- The parsed `meta.json`'s `schema` object. -/
structure Metadata where
  collection_name : String
  fields : List FieldInfo
deriving DecidableEq, Repr

/-- `MilvusInserter._is_auto_id_field`: true iff some declared field has this
name and `auto_id` true. -/
def isAutoIdField (columnName : String) (metadata : Metadata) : Bool :=
  metadata.fields.any (fun f => f.name = columnName && f.auto_id)

/-- `pd.isna` on the modelled value domain: NaN and None are missing. -/
def pdIsna : PyVal → Bool
  | .nan => true
  | .none => true
  | _ => false

/-- `hasattr(value, "to_pydatetime")`: true exactly for pandas timestamps. -/
def hasToPydatetime : PyVal → Bool
  | .timestamp _ => true
  | _ => false

/-- `value.to_pydatetime()` on a pandas timestamp. -/
def toPydatetime : PyVal → PyVal
  | .timestamp t => .datetime t
  | v => v

/-- The scalar branch of `_convert_dataframe_to_dict_list`: missing/NaN
becomes `None`, a timestamp becomes a plain datetime, all else passes
through unchanged. -/
def convertScalar (value : PyVal) : PyVal :=
  if pdIsna value then .none
  else if hasToPydatetime value then
    (if !(pdIsna value) then toPydatetime value else .none)
  else value

/-- `row[field_name]` on one dataframe row, modelled as an association list
keyed by the column names. -/
def rowLookup (row : List (String × PyVal)) (name : String) : PyVal :=
  match row.find? (fun kv => kv.1 = name) with
  | Option.some kv => kv.2
  | Option.none => PyVal.none

/-- A pandas DataFrame: the column-name list (`df.columns`) and rows, each
row an association list from column name to cell value. -/
structure DataFrame where
  columns : List String
  rows : List (List (String × PyVal))

/-- One iteration of the field loop inside `_convert_dataframe_to_dict_list`:
skip the field when it is an auto-id field or absent from `df.columns`;
otherwise convert its value (vector values through the codec, whose errors
propagate, scalars through the normalizer) and store it in the record. -/
def projectFieldStep (columns : List String) (row : List (String × PyVal))
    (metadata : Metadata) (mlDtypesAvailable : Bool)
    (record : List (String × PyVal)) (f : FieldInfo) :
    Except String (List (String × PyVal)) :=
  if isAutoIdField f.name metadata then pure record
  else if !(columns.contains f.name) then pure record
  else
    let value := rowLookup row f.name
    if containsSubstr f.type "Vector" then do
      let cv ← convertSingleVectorData value f.type mlDtypesAvailable
      pure (dictInsert record f.name cv)
    else
      pure (dictInsert record f.name (convertScalar value))

/-- The per-row body of `_convert_dataframe_to_dict_list`: iterate the
declared fields in order, applying `projectFieldStep` to an initially empty
record. -/
def projectRow (columns : List String) (row : List (String × PyVal))
    (metadata : Metadata) (mlDtypesAvailable : Bool) :
    Except String (List (String × PyVal)) :=
  metadata.fields.foldlM (projectFieldStep columns row metadata mlDtypesAvailable) []

/-- `MilvusInserter._convert_dataframe_to_dict_list`. -/
def convertDataframeToDictList (df : DataFrame) (metadata : Metadata)
    (mlDtypesAvailable : Bool) : Except String (List (List (String × PyVal))) :=
  df.rows.mapM (fun row => projectRow df.columns row metadata mlDtypesAvailable)

/-- One `schema.add_field` call: the field name, native datatype and the
keyword arguments the module passes for it. -/
structure SchemaField where
  field_name : String
  datatype : DataType
  max_length : Option Nat := Option.none
  dim : Option Nat := Option.none
  max_capacity : Option Nat := Option.none
  element_type : Option DataType := Option.none
  is_primary : Bool := false
  auto_id : Bool := false
deriving DecidableEq, Repr

/-- The collection schema built by `_create_schema`: dynamic fields are
always enabled and the declared fields are added in order. -/
structure Schema where
  enable_dynamic_field : Bool
  fields : List SchemaField
deriving DecidableEq, Repr

/-- The per-field body of `_create_schema`: pick the keyword arguments by
the field-type string (`max_length` for string types with default 65535,
`dim` for dense vectors, none for sparse vectors, `max_capacity` and a
translated `element_type` for arrays); an unknown field or element type
raises `ValueError`. -/
def createSchemaField (f : FieldInfo) : Except String SchemaField := do
  let milvusType ← getMilvusDatatype f.type
  if f.type = "VarChar" ∨ f.type = "String" then
    pure { field_name := f.name, datatype := milvusType,
           max_length := Option.some (f.max_length.getD 65535),
           is_primary := f.is_primary, auto_id := f.auto_id }
  else if containsSubstr f.type "Vector" then
    if f.type = "SparseFloatVector" then
      pure { field_name := f.name, datatype := milvusType,
             is_primary := f.is_primary, auto_id := f.auto_id }
    else
      pure { field_name := f.name, datatype := milvusType, dim := f.dim,
             is_primary := f.is_primary, auto_id := f.auto_id }
  else if f.type = "Array" then do
    let elemType ← match f.element_type with
      | Option.some et =>
        if et = "" then pure Option.none
        else (getMilvusDatatype et).map Option.some
      | Option.none => pure Option.none
    pure { field_name := f.name, datatype := milvusType,
           max_capacity := f.max_capacity, element_type := elemType,
           is_primary := f.is_primary, auto_id := f.auto_id }
  else
    pure { field_name := f.name, datatype := milvusType,
           is_primary := f.is_primary, auto_id := f.auto_id }

/-- `MilvusInserter._create_schema`. -/
def createSchema (metadata : Metadata) : Except String Schema := do
  let fields ← metadata.fields.mapM createSchemaField
  pure { enable_dynamic_field := true, fields := fields }

/-- One `index_params.add_index` call: field name and the keyword arguments
passed; `index_type` absent means the client-side AUTOINDEX default. -/
structure IndexParamEntry where
  field_name : String
  index_name : Option String := Option.none
  index_type : Option String := Option.none
  metric_type : String
  params : List (String × Rat) := []
deriving DecidableEq, Repr

/-- One iteration of `_create_index_params`: sparse vector fields add a
SPARSE_INVERTED_INDEX entry with metric IP and drop_ratio_build 0.2, other
vector fields an entry with the AUTOINDEX default and metric HAMMING for
binary vectors or L2 otherwise, non-vector fields add nothing. -/
def indexParamsStep (acc : List IndexParamEntry) (f : FieldInfo) :
    List IndexParamEntry :=
  if containsSubstr f.type "Vector" then
    if f.type = "SparseFloatVector" then
      acc ++ [{ field_name := f.name,
                index_name := Option.some ("sparse_inverted_index_" ++ f.name),
                index_type := Option.some "SPARSE_INVERTED_INDEX",
                metric_type := "IP",
                params := [("drop_ratio_build", (1 : Rat) / 5)] }]
    else
      acc ++ [{ field_name := f.name,
                metric_type := if f.type = "BinaryVector" then "HAMMING" else "L2" }]
  else acc

/-- `MilvusInserter._create_index_params`: one index entry per vector field,
in declared order. -/
def createIndexParams (metadata : Metadata) : List IndexParamEntry :=
  metadata.fields.foldl indexParamsStep []

/-- One entry of the `indexes_created` list in the returned report. -/
structure IndexInfo where
  field : String
  index_type : String
  metric_type : String
deriving DecidableEq, Repr

/-- `MilvusInserter._get_index_info` (its `collection_name` argument is
unused by the source as well). -/
def getIndexInfo (_collectionName : String) (metadata : Metadata) : List IndexInfo :=
  metadata.fields.foldl (fun acc f =>
    if containsSubstr f.type "Vector" then
      if f.type = "SparseFloatVector" then
        acc ++ [{ field := f.name, index_type := "SPARSE_INVERTED_INDEX",
                  metric_type := "IP" }]
      else
        acc ++ [{ field := f.name, index_type := "AUTOINDEX",
                  metric_type := if f.type = "BinaryVector" then "HAMMING" else "L2" }]
    else acc) []

/-- The Python exceptions `insert_data` can raise, by class. -/
inductive PyError where
  | fileNotFound (msg : String)
  | valueError (msg : String)
  | exn (msg : String)
deriving DecidableEq, Repr

/-- Environment model of the MilvusClient on the far side of the wire: what
each call would answer. `insertError file batch` is the error message the
insert call for that file and 0-based batch index raises, or `none` when it
succeeds; likewise for create, flush and load. -/
structure ClientOracle where
  hasCollection : String → Bool
  createError : Option String
  insertError : String → Nat → Option String
  flushError : Option String
  loadError : Option String

/-- One observable client call made during a run. -/
inductive Event where
  | hasCollection (name : String)
  | dropCollection (name : String)
  | createCollection (name : String) (schema : Schema)
      (indexParams : List IndexParamEntry)
  | insert (name : String) (data : List (List (String × PyVal)))
  | flush (name : String)
  | loadCollection (name : String)
  | closeClient

/-- Is this event a `create_collection` call? -/
def Event.isCreate : Event → Bool
  | .createCollection _ _ _ => true
  | _ => false

/-- Is this event a `drop_collection` call? -/
def Event.isDrop : Event → Bool
  | .dropCollection _ => true
  | _ => false

/-- Is this event an `insert` call? -/
def Event.isInsert : Event → Bool
  | .insert _ _ => true
  | _ => false

/-- Is this event a client `close` call? -/
def Event.isClose : Event → Bool
  | .closeClient => true
  | _ => false

/-- Python `range(0, stop, step)` for `step ≥ 1`: the batch start offsets. -/
def pyRange (stop step : Nat) : List Nat :=
  (List.range ((stop + step - 1) / step)).map (fun j => j * step)

/-- One entry of `failed_batches`: the dict
`\x7b"file": .., "batch": .., "error": ..\x7d` the except handler appends. -/
structure BatchFailure where
  file : String
  batch : Nat
  error : String
deriving DecidableEq, Repr

/-- The dictionary `insert_data` returns. -/
structure InsertReport where
  collection_name : String
  total_inserted : Nat
  failed_batches : List BatchFailure
  indexes_created : List IndexInfo
  collection_loaded : Bool
deriving DecidableEq, Repr

/-- Accumulator threaded through the batch loops: the `total_inserted`
counter, the `failed_batches` list and the client calls made so far. -/
structure BatchAcc where
  total : Nat
  fails : List BatchFailure
  events : List Event

/-- `df.iloc[i : i + batch_size]`: the rows of one batch. -/
def batchRowsOf (df : DataFrame) (batchSize i : Nat) :
    List (List (String × PyVal)) :=
  (df.rows.drop i).take batchSize

/-- One iteration of the `show_progress=False` batch loop: slice the batch,
convert it, submit it, count the rows on success and record a
`BatchFailure` on any exception — conversion errors raise before the insert
call, insert errors after it. -/
def plainBatchStep (client : ClientOracle) (mlDtypesAvailable : Bool)
    (collName fileName : String) (df : DataFrame) (metadata : Metadata)
    (batchSize : Nat) (acc : BatchAcc) (i : Nat) : BatchAcc :=
  match convertDataframeToDictList ⟨df.columns, batchRowsOf df batchSize i⟩
      metadata mlDtypesAvailable with
  | .error e =>
    { acc with fails := acc.fails ++
        [{ file := fileName, batch := i / batchSize, error := e }] }
  | .ok data =>
    match client.insertError fileName (i / batchSize) with
    | Option.some e =>
      { acc with
        fails := acc.fails ++
          [{ file := fileName, batch := i / batchSize, error := e }],
        events := acc.events ++ [Event.insert collName data] }
    | Option.none =>
      { acc with
        total := acc.total + (batchRowsOf df batchSize i).length,
        events := acc.events ++ [Event.insert collName data] }

/-- The `show_progress=False` batch loop over one parquet file. -/
def insertBatchesPlain (client : ClientOracle) (mlDtypesAvailable : Bool)
    (collName fileName : String) (df : DataFrame) (metadata : Metadata)
    (batchSize : Nat) (acc0 : BatchAcc) : BatchAcc :=
  (pyRange df.rows.length batchSize).foldl
    (plainBatchStep client mlDtypesAvailable collName fileName df metadata
      batchSize) acc0

/-- One iteration of the `show_progress=True` batch loop: the same slicing,
conversion and submission, plus a `progress.update` advance of the batch's
row count after the success path and inside the except handler; the
advances are the rendering-only output. -/
def progressBatchStep (client : ClientOracle) (mlDtypesAvailable : Bool)
    (collName fileName : String) (df : DataFrame) (metadata : Metadata)
    (batchSize : Nat) (acc : BatchAcc × List Nat) (i : Nat) :
    BatchAcc × List Nat :=
  match convertDataframeToDictList ⟨df.columns, batchRowsOf df batchSize i⟩
      metadata mlDtypesAvailable with
  | .error e =>
    ({ acc.1 with fails := acc.1.fails ++
         [{ file := fileName, batch := i / batchSize, error := e }] },
     acc.2 ++ [(batchRowsOf df batchSize i).length])
  | .ok data =>
    match client.insertError fileName (i / batchSize) with
    | Option.some e =>
      ({ acc.1 with
         fails := acc.1.fails ++
           [{ file := fileName, batch := i / batchSize, error := e }],
         events := acc.1.events ++ [Event.insert collName data] },
       acc.2 ++ [(batchRowsOf df batchSize i).length])
    | Option.none =>
      ({ acc.1 with
         total := acc.1.total + (batchRowsOf df batchSize i).length,
         events := acc.1.events ++ [Event.insert collName data] },
       acc.2 ++ [(batchRowsOf df batchSize i).length])

/-- The `show_progress=True` batch loop over one parquet file. -/
def insertBatchesProgress (client : ClientOracle) (mlDtypesAvailable : Bool)
    (collName fileName : String) (df : DataFrame) (metadata : Metadata)
    (batchSize : Nat) (acc0 : BatchAcc × List Nat) : BatchAcc × List Nat :=
  (pyRange df.rows.length batchSize).foldl
    (progressBatchStep client mlDtypesAvailable collName fileName df metadata
      batchSize) acc0

/-- One iteration of the outer file loop of `insert_data`: the file's rows
go through the progress or the plain batch loop according to
`show_progress` (a fresh progress task is created per file, so its advance
list starts empty and is then discarded — it is rendering only). -/
def fileStep (client : ClientOracle) (mlDtypesAvailable : Bool)
    (collName : String) (metadata : Metadata) (batchSize : Nat)
    (showProgress : Bool) (acc : BatchAcc) (file : String × DataFrame) :
    BatchAcc :=
  if showProgress then
    (insertBatchesProgress client mlDtypesAvailable collName file.1 file.2
      metadata batchSize (acc, [])).1
  else
    insertBatchesPlain client mlDtypesAvailable collName file.1 file.2
      metadata batchSize acc

/-- The outer loop of `insert_data` over the sorted parquet files. -/
def insertAllFiles (client : ClientOracle) (mlDtypesAvailable : Bool)
    (collName : String) (metadata : Metadata) (batchSize : Nat)
    (showProgress : Bool) (files : List (String × DataFrame))
    (acc0 : BatchAcc) : BatchAcc :=
  files.foldl
    (fileStep client mlDtypesAvailable collName metadata batchSize
      showProgress) acc0

/-- Insertion step of sorting the parquet file list by file name,
modelling `sorted(data_path.glob("*.parquet"))`. -/
def insertSorted (x : String × DataFrame) :
    List (String × DataFrame) → List (String × DataFrame)
  | [] => [x]
  | y :: ys => if x.1 ≤ y.1 then x :: y :: ys else y :: insertSorted x ys

/-- `sorted(data_path.glob("*.parquet"))`: the data files in lexicographic
file-name order. -/
def sortFiles (l : List (String × DataFrame)) : List (String × DataFrame) :=
  l.foldr insertSorted []

/-- The tail of `insert_data` after the collection-existence check: build
schema and index parameters, create the collection (index parameters are
passed to this same call), glob the parquet files, run the batch loops,
flush, load, and assemble the report. `evs` holds the client calls made
before this point. -/
def insertDataCore (client : ClientOracle) (mlDtypesAvailable : Bool)
    (metadata : Metadata) (parquetFiles : List (String × DataFrame))
    (finalCollectionName : String) (batchSize : Nat) (showProgress : Bool)
    (evs : List Event) : Except PyError InsertReport × List Event :=
  match createSchema metadata with
  | .error e => (.error (.valueError e), evs)
  | .ok schema =>
    let indexParams := createIndexParams metadata
    let evs := evs ++
      [Event.createCollection finalCollectionName schema indexParams]
    match client.createError with
    | Option.some e => (.error (.exn e), evs)
    | Option.none =>
      let files := sortFiles parquetFiles
      if files.isEmpty then
        (.error (.fileNotFound "No parquet files found"), evs)
      else
        let acc := insertAllFiles client mlDtypesAvailable
          finalCollectionName metadata batchSize showProgress files
          { total := 0, fails := [], events := [] }
        let evs := evs ++ acc.events ++ [Event.flush finalCollectionName]
        match client.flushError with
        | Option.some e => (.error (.exn e), evs)
        | Option.none =>
          let evs := evs ++ [Event.loadCollection finalCollectionName]
          match client.loadError with
          | Option.some e => (.error (.exn e), evs)
          | Option.none =>
            (.ok { collection_name := finalCollectionName,
                   total_inserted := acc.total,
                   failed_batches := acc.fails,
                   indexes_created :=
                     getIndexInfo finalCollectionName metadata,
                   collection_loaded := true }, evs)

/-- `collection_name or metadata["schema"]["collection_name"]`: the Python
`or` falls back on a `None` or empty-string override. -/
def resolveCollectionName (collectionName : Option String) (metadata : Metadata) :
    String :=
  match collectionName with
  | Option.some s => if s = "" then metadata.collection_name else s
  | Option.none => metadata.collection_name

/-- `MilvusInserter.insert_data`. `dataPathExists` models
`data_path.exists()`, `metaJson` the loaded `meta.json` schema object
(`Option.none` when the file is missing), `parquetFiles` the unordered glob
result. The second component is the trace of client calls the run made. -/
def insertData (client : ClientOracle) (mlDtypesAvailable : Bool)
    (dataPathExists : Bool) (metaJson : Option Metadata)
    (parquetFiles : List (String × DataFrame))
    (collectionName : Option String) (dropIfExists : Bool)
    (batchSize : Nat) (showProgress : Bool) :
    Except PyError InsertReport × List Event :=
  if !dataPathExists then
    (.error (.fileNotFound "Data path not found"), [])
  else
    match metaJson with
    | Option.none => (.error (.fileNotFound "meta.json not found"), [])
    | Option.some metadata =>
      let finalCollectionName := resolveCollectionName collectionName metadata
      let evs := [Event.hasCollection finalCollectionName]
      if client.hasCollection finalCollectionName then
        if dropIfExists then
          insertDataCore client mlDtypesAvailable metadata parquetFiles
            finalCollectionName batchSize showProgress
            (evs ++ [Event.dropCollection finalCollectionName])
        else
          (.error (.valueError ("Collection '" ++ finalCollectionName ++
            "' already exists. Use --drop-if-exists to recreate it.")), evs)
      else
        insertDataCore client mlDtypesAvailable metadata parquetFiles
          finalCollectionName batchSize showProgress evs

/-- `MilvusInserter.close`: calls `self.client.close()`, catching and
logging any exception, so it always performs exactly this one call and
never raises. -/
def closeMethod : List Event := [Event.closeClient]

/-- The sparse mapping the codec is expected to build: exactly the entries
whose weight is not `None`, in order, each key parsed to an integer and
each kept weight unchanged. -/
def sparseExpected (entries : List (String × PyVal)) : List (Int × PyVal) :=
  entries.filterMap (fun kv =>
    if kv.2.isNone then Option.none
    else (pyIntOfString kv.1).map (fun n => (n, kv.2)))

/-- Total extraction of an `Except` success value (defaulting to `None`). -/
def exceptValue (e : Except String PyVal) : PyVal :=
  match e with
  | .ok v => v
  | .error _ => PyVal.none

/-- Is the `Except` value a success? -/
def exceptIsOk {ε α : Type} (e : Except ε α) : Bool :=
  match e with
  | .ok _ => true
  | .error _ => false

/-- The converted value the row projector stores for one declared field of
one row: codec output for vector types, normalized scalar otherwise. -/
def fieldConverted (row : List (String × PyVal)) (f : FieldInfo)
    (mlDtypesAvailable : Bool) : Except String PyVal :=
  if containsSubstr f.type "Vector" then
    convertSingleVectorData (rowLookup row f.name) f.type mlDtypesAvailable
  else Except.ok (convertScalar (rowLookup row f.name))

/-- Does the row projector keep this declared field? (Not an auto-id field,
and its name occurs among the source columns.) -/
def keptFilter (columns : List String) (metadata : Metadata)
    (f : FieldInfo) : Bool :=
  !(isAutoIdField f.name metadata) && columns.contains f.name

/-- The declared fields the row projector keeps, in declared order. -/
def keptFields (columns : List String) (metadata : Metadata) :
    List FieldInfo :=
  metadata.fields.filter (keptFilter columns metadata)

/-- Declared fields of the C7 witness: an auto-id primary field `id`, a kept
vector field `v`, and a declared field `extra` absent from the source. -/
def rowProjectorWitnessMetadata : Metadata :=
  { collection_name := "c",
    fields := [
      { name := "id", type := "Int64", is_primary := true, auto_id := true },
      { name := "v", type := "FloatVector", dim := Option.some 2 },
      { name := "extra", type := "Double" }] }

/-- Source row of the C7 witness (it even carries an `id` column). -/
def rowProjectorWitnessRow : List (String × PyVal) :=
  [("id", PyVal.int 7), ("v", PyVal.list [PyVal.float 1, PyVal.float 2])]

/-- The outcome of the batch at start offset `i`: the projection error when
conversion fails, otherwise the insert call's error, otherwise `none`
(success). -/
def batchOutcome (client : ClientOracle) (mlAvail : Bool)
    (metadata : Metadata) (batchSize : Nat) (fileName : String)
    (df : DataFrame) (i : Nat) : Option String :=
  match convertDataframeToDictList ⟨df.columns, batchRowsOf df batchSize i⟩
      metadata mlAvail with
  | .error e => Option.some e
  | .ok _ => client.insertError fileName (i / batchSize)

/-- Row count credited to `total_inserted` by the batches at offsets `L`:
the size of each batch whose conversion and submission both succeed. -/
def expectedTotalOn (client : ClientOracle) (mlAvail : Bool)
    (metadata : Metadata) (batchSize : Nat) (fileName : String)
    (df : DataFrame) (L : List Nat) : Nat :=
  (L.map (fun i =>
    if (batchOutcome client mlAvail metadata batchSize fileName df i).isNone
    then (batchRowsOf df batchSize i).length else 0)).sum

/-- The `BatchFailure` entries recorded by the batches at offsets `L`: one
per failing batch, in order, naming the file, the 0-based batch index and
the error message. -/
def expectedFailuresOn (client : ClientOracle) (mlAvail : Bool)
    (metadata : Metadata) (batchSize : Nat) (fileName : String)
    (df : DataFrame) (L : List Nat) : List BatchFailure :=
  L.filterMap (fun i =>
    (batchOutcome client mlAvail metadata batchSize fileName df i).map
      (fun e => { file := fileName, batch := i / batchSize, error := e }))

/-- The insert calls made by the batches at offsets `L`: exactly one per
batch whose conversion succeeds — a failing batch is never retried. -/
def expectedInsertEventsOn (_client : ClientOracle) (mlAvail : Bool)
    (collName : String) (metadata : Metadata) (batchSize : Nat)
    (_fileName : String) (df : DataFrame) (L : List Nat) : List Event :=
  L.filterMap (fun i =>
    match convertDataframeToDictList ⟨df.columns, batchRowsOf df batchSize i⟩
        metadata mlAvail with
    | .ok data => Option.some (Event.insert collName data)
    | .error _ => Option.none)

/-- Rows credited to `total_inserted` by one whole file. -/
def expectedFileTotal (client : ClientOracle) (mlAvail : Bool)
    (metadata : Metadata) (batchSize : Nat) (file : String × DataFrame) : Nat :=
  expectedTotalOn client mlAvail metadata batchSize file.1 file.2
    (pyRange file.2.rows.length batchSize)

/-- Rows credited to `total_inserted` by a list of files. -/
def expectedFilesTotal (client : ClientOracle) (mlAvail : Bool)
    (metadata : Metadata) (batchSize : Nat)
    (files : List (String × DataFrame)) : Nat :=
  (files.map (expectedFileTotal client mlAvail metadata batchSize)).sum

/-- The `BatchFailure` entries recorded over one whole file. -/
def expectedFileFailures (client : ClientOracle) (mlAvail : Bool)
    (metadata : Metadata) (batchSize : Nat) (file : String × DataFrame) :
    List BatchFailure :=
  expectedFailuresOn client mlAvail metadata batchSize file.1 file.2
    (pyRange file.2.rows.length batchSize)

/-- The `BatchFailure` entries recorded over a list of files, in order. -/
def expectedFilesFailures (client : ClientOracle) (mlAvail : Bool)
    (metadata : Metadata) (batchSize : Nat)
    (files : List (String × DataFrame)) : List BatchFailure :=
  (files.map (expectedFileFailures client mlAvail metadata batchSize)).flatten

/-- The insert calls made over one whole file. -/
def expectedFileEvents (client : ClientOracle) (mlAvail : Bool)
    (collName : String) (metadata : Metadata) (batchSize : Nat)
    (file : String × DataFrame) : List Event :=
  expectedInsertEventsOn client mlAvail collName metadata batchSize file.1
    file.2 (pyRange file.2.rows.length batchSize)

/-- The insert calls made over a list of files, in order. -/
def expectedFilesEvents (client : ClientOracle) (mlAvail : Bool)
    (collName : String) (metadata : Metadata) (batchSize : Nat)
    (files : List (String × DataFrame)) : List Event :=
  (files.map (expectedFileEvents client mlAvail collName metadata batchSize)).flatten

/-- Whether a collection named `name` exists after replaying the client
calls of a trace against an initial existence state. -/
def existsAfter (init : Bool) (name : String) : List Event → Bool
  | [] => init
  | e :: rest =>
    existsAfter
      (match e with
       | .dropCollection n => if n = name then false else init
       | .createCollection n _ _ => if n = name then true else init
       | _ => init) name rest

/-- The per-field index derivation as a standalone pure function: what
`_create_index_params` contributes for one declared field. -/
def indexEntryFor (f : FieldInfo) : Option IndexParamEntry :=
  if containsSubstr f.type "Vector" then
    Option.some
      (if f.type = "SparseFloatVector" then
        { field_name := f.name,
          index_name := Option.some ("sparse_inverted_index_" ++ f.name),
          index_type := Option.some "SPARSE_INVERTED_INDEX",
          metric_type := "IP",
          params := [("drop_ratio_build", (1 : Rat) / 5)] }
      else
        { field_name := f.name,
          metric_type := if f.type = "BinaryVector" then "HAMMING" else "L2" })
  else Option.none

/-- Metadata with one field of each index-relevant vector kind, used by the
C8 witness. -/
def vectorMetadata : Metadata :=
  { collection_name := "c",
    fields := [
      { name := "s", type := "SparseFloatVector" },
      { name := "b", type := "BinaryVector", dim := Option.some 8 },
      { name := "v", type := "FloatVector", dim := Option.some 4 }] }

/-- The native schema `_create_schema` builds from `vectorMetadata`. -/
def vectorMetadataSchema : Schema :=
  { enable_dynamic_field := true,
    fields := [
      { field_name := "s", datatype := DataType.SPARSE_FLOAT_VECTOR },
      { field_name := "b", datatype := DataType.BINARY_VECTOR,
        dim := Option.some 8 },
      { field_name := "v", datatype := DataType.FLOAT_VECTOR,
        dim := Option.some 4 }] }

/-- A dataframe with no columns and no rows. -/
def emptyDf : DataFrame := { columns := [], rows := [] }

/-- A healthy target for concrete runs: no collection exists beforehand and
every call succeeds. -/
def healthyClient : ClientOracle :=
  { hasCollection := fun _ => false, createError := Option.none,
    insertError := fun _ _ => Option.none, flushError := Option.none,
    loadError := Option.none }

/-- A target on which the collection `"c"` already exists. -/
def collectionCExistsClient : ClientOracle :=
  { healthyClient with hasCollection := fun n => n == "c" }

/-- A target whose insert call fails with `"boom"` exactly on 0-based batch
index 1 of any file, and succeeds otherwise. -/
def batch1FailClient : ClientOracle :=
  { healthyClient with
    insertError := fun _ b => if b = 1 then Option.some "boom" else Option.none }

/-- Concrete single-field metadata used by the pipeline witnesses. -/
def idMetadata : Metadata :=
  { collection_name := "c",
    fields := [{ name := "id", type := "Int64", is_primary := true }] }

/-- A concrete three-row dataframe with a single `id` column. -/
def threeRowDf : DataFrame :=
  { columns := ["id"],
    rows := [[("id", PyVal.int 0)], [("id", PyVal.int 1)],
             [("id", PyVal.int 2)]] }

/-- The fixed 16-entry field-type vocabulary of `_get_milvus_datatype`. -/
def fieldTypeVocabulary : List String :=
  ["Bool", "Int8", "Int16", "Int32", "Int64", "Float", "Double", "String",
   "VarChar", "JSON", "Array", "FloatVector", "BinaryVector",
   "Float16Vector", "BFloat16Vector", "SparseFloatVector"]

/-- C5: `_get_milvus_datatype` returns the fixed native constant for each of
the 16 vocabulary types and raises an unsupported-type `ValueError` for
every string outside that vocabulary; being a Lean function of its argument
alone, it is a pure, side-effect-free lookup. -/
theorem field_type_registry_total_and_closed :
    (getMilvusDatatype "Bool" = .ok .BOOL ∧
     getMilvusDatatype "Int8" = .ok .INT8 ∧
     getMilvusDatatype "Int16" = .ok .INT16 ∧
     getMilvusDatatype "Int32" = .ok .INT32 ∧
     getMilvusDatatype "Int64" = .ok .INT64 ∧
     getMilvusDatatype "Float" = .ok .FLOAT ∧
     getMilvusDatatype "Double" = .ok .DOUBLE ∧
     getMilvusDatatype "String" = .ok .VARCHAR ∧
     getMilvusDatatype "VarChar" = .ok .VARCHAR ∧
     getMilvusDatatype "JSON" = .ok .JSON ∧
     getMilvusDatatype "Array" = .ok .ARRAY ∧
     getMilvusDatatype "FloatVector" = .ok .FLOAT_VECTOR ∧
     getMilvusDatatype "BinaryVector" = .ok .BINARY_VECTOR ∧
     getMilvusDatatype "Float16Vector" = .ok .FLOAT16_VECTOR ∧
     getMilvusDatatype "BFloat16Vector" = .ok .BFLOAT16_VECTOR ∧
     getMilvusDatatype "SparseFloatVector" = .ok .SPARSE_FLOAT_VECTOR) ∧
    ∀ s : String, s ∉ fieldTypeVocabulary →
      getMilvusDatatype s = .error ("Unknown field type: " ++ s) := by
  refine ⟨⟨rfl, rfl, rfl, rfl, rfl, rfl, rfl, rfl, rfl, rfl, rfl, rfl, rfl,
    rfl, rfl, rfl⟩, ?_⟩
  intro s hs
  simp only [fieldTypeVocabulary, List.mem_cons, List.not_mem_nil, or_false,
    not_or] at hs
  obtain ⟨h1, h2, h3, h4, h5, h6, h7, h8, h9, h10, h11, h12, h13, h14, h15,
    h16⟩ := hs
  simp [getMilvusDatatype, h1, h2, h3, h4, h5, h6, h7, h8, h9, h10, h11,
    h12, h13, h14, h15, h16]

/-- Witness for C5 at the concrete out-of-vocabulary input `"Point"`. -/
theorem field_type_registry_total_and_closed_witness :
    getMilvusDatatype "Point" = .error ("Unknown field type: " ++ "Point") :=
  field_type_registry_total_and_closed.2 "Point" (by decide)

/-- C3 counterexample: with brain-float support unavailable, the codec does
not fail at all — it returns the raw uint8 byte list unchanged, so the
caller receives a value of unconverted precision rather than a capability
error. -/
theorem bfloat16_capability_counterexample :
    convertSingleVectorData (PyVal.list [PyVal.int 0, PyVal.int 62])
        "BFloat16Vector" false
      = Except.ok (PyVal.list [PyVal.int 0, PyVal.int 62]) := rfl

/-- C3 amended: when `ml_dtypes` is unavailable, `_convert_single_vector_data`
on a BFloat16Vector logs an error and returns its input unchanged for every
value; no capability error is ever raised on this path. -/
theorem bfloat16_unavailable_passthrough (v : PyVal) :
    convertSingleVectorData v "BFloat16Vector" false = Except.ok v := rfl

/-- Inserting a fresh key into a dict appends the binding at the end. -/
theorem dictInsert_eq_append {α β : Type} [DecidableEq α]
    (m : List (α × β)) (k : α) (v : β) (h : ∀ kv ∈ m, kv.1 ≠ k) :
    dictInsert m k v = m ++ [(k, v)] := by
  induction m with
  | nil => rfl
  | cons kv rest ih =>
    rw [dictInsert, if_neg (h kv (List.mem_cons_self _ _)),
      ih (fun x hx => h x (List.mem_cons_of_mem _ hx)), List.cons_append]

/-- The sparse fold computes `sparseExpected` appended to its accumulator,
provided every kept key parses and the resulting integer keys are fresh and
mutually distinct (so each dict insertion appends). -/
theorem sparseFromEntries_eq_append (entries : List (String × PyVal)) :
    ∀ acc : List (Int × PyVal),
    (∀ kv ∈ entries, kv.2.isNone = false → (pyIntOfString kv.1).isSome) →
    (acc.map Prod.fst ++ (sparseExpected entries).map Prod.fst).Nodup →
    sparseFromEntries entries acc = .ok (acc ++ sparseExpected entries) := by
  induction entries with
  | nil =>
    intro acc _ _
    simp [sparseFromEntries, sparseExpected]
  | cons kv rest ih =>
    intro acc hparse hnodup
    by_cases hnull : kv.2.isNone = true
    · rw [sparseFromEntries, if_pos hnull]
      have hexp : sparseExpected (kv :: rest) = sparseExpected rest := by
        simp [sparseExpected, List.filterMap_cons, hnull]
      rw [hexp] at hnodup ⊢
      exact ih acc (fun x hx => hparse x (List.mem_cons_of_mem _ hx)) hnodup
    · have hnull' : kv.2.isNone = false := by
        simpa using hnull
      obtain ⟨n, hn⟩ := Option.isSome_iff_exists.mp
        (hparse kv (List.mem_cons_self _ _) hnull')
      have hexp : sparseExpected (kv :: rest) =
          (n, kv.2) :: sparseExpected rest := by
        simp [sparseExpected, List.filterMap_cons, hnull', hn]
      rw [sparseFromEntries, if_neg (by simp [hnull']), hn]
      show sparseFromEntries rest (dictInsert acc n kv.2)
        = Except.ok (acc ++ sparseExpected (kv :: rest))
      rw [hexp] at hnodup
      simp only [List.map_cons] at hnodup
      have hfresh : ∀ p ∈ acc, p.1 ≠ n := by
        intro p hp hpn
        have hdisj := (List.nodup_append.mp hnodup).2.2
        exact hdisj (hpn ▸ List.mem_map_of_mem Prod.fst hp)
          (List.mem_cons_self _ _)
      rw [dictInsert_eq_append acc n kv.2 hfresh]
      have hnodup' : ((acc ++ [(n, kv.2)]).map Prod.fst ++
          (sparseExpected rest).map Prod.fst).Nodup := by
        simp only [List.map_append, List.map_cons, List.map_nil,
          List.append_assoc, List.singleton_append]
        exact hnodup
      rw [ih (acc ++ [(n, kv.2)])
        (fun x hx => hparse x (List.mem_cons_of_mem _ hx)) hnodup']
      simp [hexp]

/-- C6: the sparse-vector codec maps a string-keyed mapping to exactly its
non-null entries, keys integerized, kept weights unchanged, assuming every
kept key parses as an integer and the parsed keys are distinct. -/
theorem sparse_vector_codec_spec (entries : List (String × PyVal))
    (mlDtypesAvailable : Bool)
    (hparse : ∀ kv ∈ entries, kv.2.isNone = false → (pyIntOfString kv.1).isSome)
    (hnodup : ((sparseExpected entries).map Prod.fst).Nodup) :
    convertSingleVectorData (PyVal.strDict entries) "SparseFloatVector"
        mlDtypesAvailable
      = Except.ok (PyVal.intDict (sparseExpected entries)) := by
  have hconv : convertSingleVectorData (PyVal.strDict entries)
      "SparseFloatVector" mlDtypesAvailable
      = (sparseFromEntries entries []).map PyVal.intDict := rfl
  rw [hconv, sparseFromEntries_eq_append entries [] hparse (by simpa using hnodup)]
  simp [Except.map]

/-- Witness for C6 at the concrete input of the specification:
`\x7b"3": 0.5, "7": null, "9": 1.2\x7d` is encoded as
`\x7b3: 0.5, 9: 1.2\x7d`. -/
theorem sparse_vector_codec_spec_witness :
    convertSingleVectorData (PyVal.strDict
        [("3", PyVal.float 0.5), ("7", PyVal.none), ("9", PyVal.float 1.2)])
        "SparseFloatVector" true
      = Except.ok (PyVal.intDict
        [(3, PyVal.float 0.5), (9, PyVal.float 1.2)]) :=
  sparse_vector_codec_spec
    [("3", PyVal.float 0.5), ("7", PyVal.none), ("9", PyVal.float 1.2)]
    true (by decide) (by decide)

/-- One field-loop step, rephrased: a kept field converts its value and
stores it, any other field leaves the record untouched. -/
theorem projectFieldStep_eq (columns : List String)
    (row : List (String × PyVal)) (metadata : Metadata) (mlAvail : Bool)
    (record : List (String × PyVal)) (f : FieldInfo) :
    projectFieldStep columns row metadata mlAvail record f =
      if keptFilter columns metadata f then
        (fieldConverted row f mlAvail).map (fun cv => dictInsert record f.name cv)
      else Except.ok record := by
  unfold projectFieldStep keptFilter fieldConverted
  by_cases h1 : isAutoIdField f.name metadata
  · simp [h1, pure, Except.pure]
  · by_cases h2 : columns.contains f.name
    · by_cases h3 : containsSubstr f.type "Vector"
      · simp only [h1, h2, h3, Bool.not_false, Bool.and_self, if_true,
          Bool.not_eq_true] at *
        simp only [h1, h2, h3, Bool.not_false, Bool.true_and, if_true,
          Bool.not_true, Bool.false_eq_true, if_false]
        cases convertSingleVectorData (rowLookup row f.name) f.type mlAvail <;> rfl
      · simp [h1, h2, h3, pure, Except.pure, Except.map]
    · have h2' : f.name ∉ columns := by simpa using h2
      simp [h1, h2', pure, Except.pure]

/-- Unfolding of the keep condition into its two conjuncts. -/
theorem keptFilter_eq_true_iff (columns : List String) (metadata : Metadata)
    (f : FieldInfo) :
    keptFilter columns metadata f = true ↔
      isAutoIdField f.name metadata = false ∧
        columns.contains f.name = true := by
  rw [keptFilter]
  cases hA : isAutoIdField f.name metadata <;>
    cases hC : columns.contains f.name <;> simp [hA, hC]

/-- The field fold of the row projector appends one binding per kept field
to its accumulator, provided every kept field's value converts and the kept
names are fresh for the accumulator and mutually distinct. -/
theorem foldlM_projectFieldStep (columns : List String)
    (row : List (String × PyVal)) (metadata : Metadata) (mlAvail : Bool) :
    ∀ (fields : List FieldInfo) (record : List (String × PyVal)),
    (∀ f ∈ fields, keptFilter columns metadata f = true →
      exceptIsOk (fieldConverted row f mlAvail) = true) →
    (∀ f ∈ fields.filter (keptFilter columns metadata),
      f.name ∉ record.map Prod.fst) →
    ((fields.filter (keptFilter columns metadata)).map FieldInfo.name).Nodup →
    fields.foldlM (projectFieldStep columns row metadata mlAvail) record
      = Except.ok (record ++ (fields.filter (keptFilter columns metadata)).map
          (fun f => (f.name, exceptValue (fieldConverted row f mlAvail)))) := by
  intro fields
  induction fields with
  | nil =>
    intro record _ _ _
    simp only [List.foldlM_nil, List.filter_nil, List.map_nil,
      List.append_nil]
    rfl
  | cons f rest ih =>
    intro record hconv hfresh hnodup
    rw [List.foldlM_cons, projectFieldStep_eq]
    by_cases hk : keptFilter columns metadata f = true
    · have hok := hconv f (List.mem_cons_self _ _) hk
      cases hcv : fieldConverted row f mlAvail with
      | error e =>
        rw [hcv] at hok
        simp [exceptIsOk] at hok
      | ok cv =>
        rw [if_pos hk]
        have hfree : ∀ kv ∈ record, kv.1 ≠ f.name := by
          intro kv hkv heq
          exact hfresh f (by simp [List.filter_cons, hk])
            (heq ▸ List.mem_map_of_mem Prod.fst hkv)
        show rest.foldlM (projectFieldStep columns row metadata mlAvail)
            (dictInsert record f.name cv) = _
        rw [dictInsert_eq_append record f.name cv hfree]
        rw [List.filter_cons_of_pos hk] at hfresh hnodup ⊢
        rw [List.map_cons, List.nodup_cons] at hnodup
        rw [ih (record ++ [(f.name, cv)])
          (fun g hg => hconv g (List.mem_cons_of_mem _ hg))
          (fun g hg => by
            intro hmem
            rw [List.map_append] at hmem
            rcases List.mem_append.mp hmem with hmem | hmem
            · exact hfresh g (List.mem_cons_of_mem _ hg) hmem
            · have : g.name = f.name := by simpa using hmem
              exact hnodup.1 (this ▸ List.mem_map_of_mem FieldInfo.name hg))
          hnodup.2]
        simp [hcv, exceptValue, List.append_assoc]
    · rw [if_neg hk]
      show rest.foldlM (projectFieldStep columns row metadata mlAvail) record = _
      rw [List.filter_cons_of_neg (by simpa using hk)] at hfresh hnodup ⊢
      exact ih record (fun g hg => hconv g (List.mem_cons_of_mem _ hg))
        hfresh hnodup

/-- C7: for every row and metadata with distinct declared field names whose
kept values all convert, the row projector succeeds; the record has no key
for any auto-id field and none for a declared field absent from the source
columns (the absent field raising no error), and every kept declared field
appears with its converted value. Source rows are never written to — the
projector only reads them. -/
theorem row_projector_spec (columns : List String)
    (row : List (String × PyVal)) (metadata : Metadata)
    (mlDtypesAvailable : Bool)
    (hnodup : (metadata.fields.map FieldInfo.name).Nodup)
    (hconv : ∀ f ∈ metadata.fields, keptFilter columns metadata f = true →
      exceptIsOk (fieldConverted row f mlDtypesAvailable) = true) :
    ∃ record, projectRow columns row metadata mlDtypesAvailable
        = Except.ok record ∧
      record = (keptFields columns metadata).map
        (fun f => (f.name, exceptValue (fieldConverted row f mlDtypesAvailable))) ∧
      (∀ f ∈ metadata.fields, isAutoIdField f.name metadata = true →
        f.name ∉ record.map Prod.fst) ∧
      (∀ f ∈ metadata.fields, columns.contains f.name = false →
        f.name ∉ record.map Prod.fst) ∧
      (∀ f ∈ metadata.fields, keptFilter columns metadata f = true →
        (f.name, exceptValue (fieldConverted row f mlDtypesAvailable)) ∈ record) := by
  have hkept : ((metadata.fields.filter (keptFilter columns metadata)).map
      FieldInfo.name).Nodup :=
    List.Nodup.sublist
      (List.Sublist.map FieldInfo.name (List.filter_sublist metadata.fields))
      hnodup
  have hmain := foldlM_projectFieldStep columns row metadata mlDtypesAvailable
    metadata.fields [] hconv (by simp) hkept
  refine ⟨(keptFields columns metadata).map
    (fun f => (f.name, exceptValue (fieldConverted row f mlDtypesAvailable))),
    ?_, rfl, ?_, ?_, ?_⟩
  · rw [projectRow, hmain]
    simp [keptFields]
  · intro f _ hauto hmem
    rw [List.map_map] at hmem
    obtain ⟨g, hg, hgname⟩ := List.mem_map.mp hmem
    have hgname' : g.name = f.name := by simpa using hgname
    have hgkept := (keptFilter_eq_true_iff columns metadata g).mp
      (List.mem_filter.mp hg).2
    rw [hgname', hauto] at hgkept
    exact absurd hgkept.1 (by simp)
  · intro f _ habs hmem
    rw [List.map_map] at hmem
    obtain ⟨g, hg, hgname⟩ := List.mem_map.mp hmem
    have hgname' : g.name = f.name := by simpa using hgname
    have hgkept := (keptFilter_eq_true_iff columns metadata g).mp
      (List.mem_filter.mp hg).2
    rw [hgname', habs] at hgkept
    exact absurd hgkept.2 (by simp)
  · intro f hf hk
    exact List.mem_map_of_mem _ (List.mem_filter.mpr ⟨hf, hk⟩)

/-- Witness for C7 at a concrete row: the projector keeps only `v`, skips
the auto-id `id` (despite the source column) and the absent `extra`. -/
theorem row_projector_spec_witness :
    ∃ record, projectRow ["id", "v"] rowProjectorWitnessRow
        rowProjectorWitnessMetadata true = Except.ok record ∧
      record = (keptFields ["id", "v"] rowProjectorWitnessMetadata).map
        (fun f => (f.name,
          exceptValue (fieldConverted rowProjectorWitnessRow f true))) ∧
      (∀ f ∈ rowProjectorWitnessMetadata.fields,
        isAutoIdField f.name rowProjectorWitnessMetadata = true →
        f.name ∉ record.map Prod.fst) ∧
      (∀ f ∈ rowProjectorWitnessMetadata.fields,
        (["id", "v"] : List String).contains f.name = false →
        f.name ∉ record.map Prod.fst) ∧
      (∀ f ∈ rowProjectorWitnessMetadata.fields,
        keptFilter ["id", "v"] rowProjectorWitnessMetadata f = true →
        (f.name, exceptValue (fieldConverted rowProjectorWitnessRow f true))
          ∈ record) :=
  row_projector_spec ["id", "v"] rowProjectorWitnessRow
    rowProjectorWitnessMetadata true (by decide) (by decide)

/-- The plain batch loop computes, from any starting accumulator, the sums
and lists described by the expected-outcome functions. -/
theorem foldl_plainBatchStep (client : ClientOracle) (mlAvail : Bool)
    (collName fileName : String) (df : DataFrame) (metadata : Metadata)
    (batchSize : Nat) :
    ∀ (L : List Nat) (acc : BatchAcc),
    L.foldl (plainBatchStep client mlAvail collName fileName df metadata
        batchSize) acc
      = { total := acc.total +
            expectedTotalOn client mlAvail metadata batchSize fileName df L,
          fails := acc.fails ++
            expectedFailuresOn client mlAvail metadata batchSize fileName df L,
          events := acc.events ++ expectedInsertEventsOn client mlAvail
            collName metadata batchSize fileName df L } := by
  intro L
  induction L with
  | nil =>
    intro acc
    simp [expectedTotalOn, expectedFailuresOn, expectedInsertEventsOn]
  | cons i L ih =>
    intro acc
    rw [List.foldl_cons, ih, plainBatchStep]
    cases hc : convertDataframeToDictList ⟨df.columns, batchRowsOf df batchSize i⟩
        metadata mlAvail with
    | error e =>
      simp [expectedTotalOn, expectedFailuresOn, expectedInsertEventsOn,
        batchOutcome, hc, List.filterMap_cons, List.append_assoc]
    | ok data =>
      cases he : client.insertError fileName (i / batchSize) with
      | some e =>
        simp [expectedTotalOn, expectedFailuresOn, expectedInsertEventsOn,
          batchOutcome, hc, he, List.filterMap_cons, List.append_assoc]
      | none =>
        simp [expectedTotalOn, expectedFailuresOn, expectedInsertEventsOn,
          batchOutcome, hc, he, List.filterMap_cons, List.append_assoc,
          Nat.add_assoc]

/-- One progress-loop iteration carries the same accumulator as the plain
iteration; the extra component is only the rendering advance. -/
theorem progressBatchStep_fst (client : ClientOracle) (mlAvail : Bool)
    (collName fileName : String) (df : DataFrame) (metadata : Metadata)
    (batchSize : Nat) (acc : BatchAcc × List Nat) (i : Nat) :
    (progressBatchStep client mlAvail collName fileName df metadata batchSize
        acc i).1
      = plainBatchStep client mlAvail collName fileName df metadata batchSize
          acc.1 i := by
  rw [progressBatchStep, plainBatchStep]
  cases convertDataframeToDictList ⟨df.columns, batchRowsOf df batchSize i⟩
      metadata mlAvail with
  | error e => rfl
  | ok data => cases client.insertError fileName (i / batchSize) <;> rfl

/-- The progress batch loop carries the same accumulator as the plain one. -/
theorem foldl_progressBatchStep_fst (client : ClientOracle) (mlAvail : Bool)
    (collName fileName : String) (df : DataFrame) (metadata : Metadata)
    (batchSize : Nat) :
    ∀ (L : List Nat) (p : BatchAcc × List Nat),
    (L.foldl (progressBatchStep client mlAvail collName fileName df metadata
        batchSize) p).1
      = L.foldl (plainBatchStep client mlAvail collName fileName df metadata
          batchSize) p.1 := by
  intro L
  induction L with
  | nil => intro p; rfl
  | cons i L ih =>
    intro p
    rw [List.foldl_cons, List.foldl_cons, ih, progressBatchStep_fst]

/-- One file-loop iteration, characterized: it adds the file's expected
totals, failures and insert events, whichever progress mode is active. -/
theorem fileStep_eq (client : ClientOracle) (mlAvail : Bool)
    (collName : String) (metadata : Metadata) (batchSize : Nat)
    (showProgress : Bool) (acc : BatchAcc) (file : String × DataFrame) :
    fileStep client mlAvail collName metadata batchSize showProgress acc file
      = { total := acc.total +
            expectedFileTotal client mlAvail metadata batchSize file,
          fails := acc.fails ++
            expectedFileFailures client mlAvail metadata batchSize file,
          events := acc.events ++ expectedFileEvents client mlAvail collName
            metadata batchSize file } := by
  rw [fileStep]
  by_cases hp : showProgress
  · rw [if_pos hp, insertBatchesProgress, foldl_progressBatchStep_fst,
      foldl_plainBatchStep]
    rfl
  · rw [if_neg hp, insertBatchesPlain, foldl_plainBatchStep]
    rfl

/-- The whole file loop computes the concatenated expected totals, failures
and insert events of its files, independent of the progress mode. -/
theorem insertAllFiles_eq (client : ClientOracle) (mlAvail : Bool)
    (collName : String) (metadata : Metadata) (batchSize : Nat)
    (showProgress : Bool) :
    ∀ (files : List (String × DataFrame)) (acc : BatchAcc),
    insertAllFiles client mlAvail collName metadata batchSize showProgress
        files acc
      = { total := acc.total +
            expectedFilesTotal client mlAvail metadata batchSize files,
          fails := acc.fails ++
            expectedFilesFailures client mlAvail metadata batchSize files,
          events := acc.events ++ expectedFilesEvents client mlAvail collName
            metadata batchSize files } := by
  intro files
  induction files with
  | nil =>
    intro acc
    simp [insertAllFiles, expectedFilesTotal, expectedFilesFailures,
      expectedFilesEvents]
  | cons fd files ih =>
    intro acc
    rw [insertAllFiles, List.foldl_cons, fileStep_eq]
    rw [show files.foldl (fileStep client mlAvail collName metadata batchSize
      showProgress) _ = insertAllFiles client mlAvail collName metadata
      batchSize showProgress files _ from rfl, ih]
    simp [expectedFilesTotal, expectedFilesFailures, expectedFilesEvents,
      List.append_assoc, Nat.add_assoc]

/-- The file loop is independent of the progress mode. -/
theorem insertAllFiles_showProgress (client : ClientOracle) (mlAvail : Bool)
    (collName : String) (metadata : Metadata) (batchSize : Nat)
    (files : List (String × DataFrame)) (acc : BatchAcc) :
    insertAllFiles client mlAvail collName metadata batchSize true files acc
      = insertAllFiles client mlAvail collName metadata batchSize false
          files acc := by
  rw [insertAllFiles_eq, insertAllFiles_eq]

/-- The pipeline tail after the existence check is independent of the
progress mode. -/
theorem insertDataCore_showProgress (client : ClientOracle) (mlAvail : Bool)
    (metadata : Metadata) (parquetFiles : List (String × DataFrame))
    (finalName : String) (batchSize : Nat) (evs : List Event) :
    insertDataCore client mlAvail metadata parquetFiles finalName batchSize
        true evs
      = insertDataCore client mlAvail metadata parquetFiles finalName
          batchSize false evs := by
  rw [insertDataCore, insertDataCore]
  simp only [insertAllFiles_showProgress]

/-- C10: for every dataset, metadata and target behavior, `insert_data`
with `show_progress=True` and with `show_progress=False` returns the same
result (the identical report, or the identical error) and makes the same
client calls — the progress branch and the plain branch perform the same
batch loop, differing only in rendering. -/
theorem show_progress_invariance (client : ClientOracle) (mlAvail : Bool)
    (dataPathExists : Bool) (metaJson : Option Metadata)
    (parquetFiles : List (String × DataFrame))
    (collectionName : Option String) (dropIfExists : Bool) (batchSize : Nat) :
    insertData client mlAvail dataPathExists metaJson parquetFiles
        collectionName dropIfExists batchSize true
      = insertData client mlAvail dataPathExists metaJson parquetFiles
          collectionName dropIfExists batchSize false := by
  rw [insertData.eq_def, insertData.eq_def]
  simp only [insertDataCore_showProgress]

/-- When validation passes and the target has no collection of the resolved
name, `insert_data` proceeds to the pipeline tail with the existence check
as its only prior client call. -/
theorem insertData_reaches_core (client : ClientOracle) (mlAvail : Bool)
    (metadata : Metadata) (parquetFiles : List (String × DataFrame))
    (collectionName : Option String) (dropIfExists : Bool) (batchSize : Nat)
    (showProgress : Bool)
    (hnc : client.hasCollection (resolveCollectionName collectionName metadata)
      = false) :
    insertData client mlAvail true (Option.some metadata) parquetFiles
        collectionName dropIfExists batchSize showProgress
      = insertDataCore client mlAvail metadata parquetFiles
          (resolveCollectionName collectionName metadata) batchSize
          showProgress
          [Event.hasCollection (resolveCollectionName collectionName metadata)] := by
  rw [insertData.eq_def]
  simp [hnc]

/-- The pipeline tail on a healthy target: schema built, collection created
with the index parameters, all files' batches run, flush and load
performed, and the report assembled from the expected outcomes. -/
theorem insertDataCore_success (client : ClientOracle) (mlAvail : Bool)
    (metadata : Metadata) (parquetFiles : List (String × DataFrame))
    (finalName : String) (batchSize : Nat) (showProgress : Bool)
    (evs : List Event) (schema : Schema)
    (hschema : createSchema metadata = Except.ok schema)
    (hcreate : client.createError = Option.none)
    (hfiles : (sortFiles parquetFiles).isEmpty = false)
    (hflush : client.flushError = Option.none)
    (hload : client.loadError = Option.none) :
    insertDataCore client mlAvail metadata parquetFiles finalName batchSize
        showProgress evs
      = (Except.ok
          { collection_name := finalName,
            total_inserted := expectedFilesTotal client mlAvail metadata
              batchSize (sortFiles parquetFiles),
            failed_batches := expectedFilesFailures client mlAvail metadata
              batchSize (sortFiles parquetFiles),
            indexes_created := getIndexInfo finalName metadata,
            collection_loaded := true },
         evs ++ [Event.createCollection finalName schema
             (createIndexParams metadata)]
           ++ expectedFilesEvents client mlAvail finalName metadata batchSize
               (sortFiles parquetFiles)
           ++ [Event.flush finalName, Event.loadCollection finalName]) := by
  rw [insertDataCore, hschema]
  simp only [hcreate, hfiles, insertAllFiles_eq, Bool.false_eq_true,
    if_false, hflush, hload]
  simp [List.append_assoc]

/-- The pipeline tail when the dataset directory holds no parquet file: the
collection has already been created when the fatal error is raised. -/
theorem insertDataCore_no_files (client : ClientOracle) (mlAvail : Bool)
    (metadata : Metadata) (finalName : String) (batchSize : Nat)
    (showProgress : Bool) (evs : List Event) (schema : Schema)
    (hschema : createSchema metadata = Except.ok schema)
    (hcreate : client.createError = Option.none) :
    insertDataCore client mlAvail metadata [] finalName batchSize
        showProgress evs
      = (Except.error (PyError.fileNotFound "No parquet files found"),
         evs ++ [Event.createCollection finalName schema
           (createIndexParams metadata)]) := by
  rw [insertDataCore, hschema]
  simp only [hcreate]
  rfl

/-- C1: on a run that reaches the batch loop and whose flush and load
succeed, a batch whose insert call (or conversion) raises is recorded as a
`BatchFailure` naming the file, the 0-based batch index and the error
message; processing continues through every batch of every file;
`total_inserted` is exactly the summed row count of the batches whose
insert succeeded; and the trace contains exactly one insert call per batch
whose conversion succeeded — a failed batch is never retried. -/
theorem batch_failure_isolation (client : ClientOracle) (mlAvail : Bool)
    (metadata : Metadata) (parquetFiles : List (String × DataFrame))
    (collectionName : Option String) (dropIfExists : Bool) (batchSize : Nat)
    (showProgress : Bool) (finalName : String) (schema : Schema)
    (hname : finalName = resolveCollectionName collectionName metadata)
    (hnc : client.hasCollection finalName = false)
    (hschema : createSchema metadata = Except.ok schema)
    (hcreate : client.createError = Option.none)
    (hfiles : (sortFiles parquetFiles).isEmpty = false)
    (hflush : client.flushError = Option.none)
    (hload : client.loadError = Option.none) :
    insertData client mlAvail true (Option.some metadata) parquetFiles
        collectionName dropIfExists batchSize showProgress
      = (Except.ok
          { collection_name := finalName,
            total_inserted := expectedFilesTotal client mlAvail metadata
              batchSize (sortFiles parquetFiles),
            failed_batches := expectedFilesFailures client mlAvail metadata
              batchSize (sortFiles parquetFiles),
            indexes_created := getIndexInfo finalName metadata,
            collection_loaded := true },
         [Event.hasCollection finalName]
           ++ [Event.createCollection finalName schema
               (createIndexParams metadata)]
           ++ expectedFilesEvents client mlAvail finalName metadata batchSize
               (sortFiles parquetFiles)
           ++ [Event.flush finalName, Event.loadCollection finalName]) := by
  subst hname
  rw [insertData_reaches_core client mlAvail metadata parquetFiles
    collectionName dropIfExists batchSize showProgress hnc]
  rw [insertDataCore_success client mlAvail metadata parquetFiles _ batchSize
    showProgress _ schema hschema hcreate hfiles hflush hload]

/-- Witness for C1: three one-row batches, the insert of 0-based batch 1
fails with "boom"; the report counts batches 0 and 2 (2 rows), records one
failure naming file and batch index, and every batch was submitted exactly
once. -/
theorem batch_failure_isolation_witness :
    insertData batch1FailClient true true (Option.some idMetadata)
        [("f.parquet", threeRowDf)] Option.none false 1 true
      = (Except.ok
          { collection_name := "c", total_inserted := 2,
            failed_batches :=
              [{ file := "f.parquet", batch := 1, error := "boom" }],
            indexes_created := [], collection_loaded := true },
         [Event.hasCollection "c",
          Event.createCollection "c"
            { enable_dynamic_field := true,
              fields := [{ field_name := "id", datatype := DataType.INT64,
                           is_primary := true }] } [],
          Event.insert "c" [[("id", PyVal.int 0)]],
          Event.insert "c" [[("id", PyVal.int 1)]],
          Event.insert "c" [[("id", PyVal.int 2)]],
          Event.flush "c", Event.loadCollection "c"]) :=
  batch_failure_isolation batch1FailClient true idMetadata
    [("f.parquet", threeRowDf)] Option.none false 1 true "c"
    { enable_dynamic_field := true,
      fields := [{ field_name := "id", datatype := DataType.INT64,
                   is_primary := true }] }
    rfl rfl rfl rfl rfl rfl rfl

/-- C2 counterexample: a dataset directory with a metadata file but no data
file does fail, but not before a network call — the trace of the run
contains a `create_collection` call (preceded by the `has_collection`
check), so a collection is created on the target before the error. -/
theorem missing_datafile_counterexample :
    (insertData healthyClient true true (Option.some idMetadata) []
        Option.none false 10000 true).1
      = Except.error (PyError.fileNotFound "No parquet files found") ∧
    ((insertData healthyClient true true (Option.some idMetadata) []
        Option.none false 10000 true).2.any Event.isCreate) = true :=
  ⟨rfl, rfl⟩

/-- C2 amended: with a metadata file present but no data file, the call
fails with a fatal FileNotFoundError, but only after the collection
existence check and the collection creation have been performed — the
trace is exactly the `has_collection` call followed by the
`create_collection` call, so a collection is created on the target before
the error propagates. -/
theorem missing_datafile_fails_after_create (client : ClientOracle)
    (mlAvail : Bool) (metadata : Metadata) (collectionName : Option String)
    (dropIfExists : Bool) (batchSize : Nat) (showProgress : Bool)
    (finalName : String) (schema : Schema)
    (hname : finalName = resolveCollectionName collectionName metadata)
    (hnc : client.hasCollection finalName = false)
    (hschema : createSchema metadata = Except.ok schema)
    (hcreate : client.createError = Option.none) :
    insertData client mlAvail true (Option.some metadata) [] collectionName
        dropIfExists batchSize showProgress
      = (Except.error (PyError.fileNotFound "No parquet files found"),
         [Event.hasCollection finalName,
          Event.createCollection finalName schema
            (createIndexParams metadata)]) := by
  subst hname
  rw [insertData_reaches_core client mlAvail metadata [] collectionName
    dropIfExists batchSize showProgress hnc]
  rw [insertDataCore_no_files client mlAvail metadata _ batchSize
    showProgress _ schema hschema hcreate]
  rfl

/-- Witness for C2's amended claim at a concrete empty dataset. -/
theorem missing_datafile_fails_after_create_witness :
    insertData healthyClient true true (Option.some idMetadata) []
        Option.none false 10000 true
      = (Except.error (PyError.fileNotFound "No parquet files found"),
         [Event.hasCollection "c",
          Event.createCollection "c"
            { enable_dynamic_field := true,
              fields := [{ field_name := "id", datatype := DataType.INT64,
                           is_primary := true }] } []]) :=
  missing_datafile_fails_after_create healthyClient true idMetadata
    Option.none false 10000 true "c"
    { enable_dynamic_field := true,
      fields := [{ field_name := "id", datatype := DataType.INT64,
                   is_primary := true }] }
    rfl rfl rfl rfl

/-- C4: when the target collection already exists and `drop_if_exists` was
not requested, `insert_data` raises a conflict `ValueError` after only the
existence check — the trace holds no create, drop or insert call, and
replaying the trace leaves the collection existing. -/
theorem conflict_failfast (client : ClientOracle) (mlAvail : Bool)
    (metadata : Metadata) (parquetFiles : List (String × DataFrame))
    (collectionName : Option String) (batchSize : Nat) (showProgress : Bool)
    (finalName : String)
    (hname : finalName = resolveCollectionName collectionName metadata)
    (hex : client.hasCollection finalName = true) :
    insertData client mlAvail true (Option.some metadata) parquetFiles
        collectionName false batchSize showProgress
      = (Except.error (PyError.valueError ("Collection '" ++ finalName ++
          "' already exists. Use --drop-if-exists to recreate it.")),
         [Event.hasCollection finalName]) ∧
    (∀ e ∈ (insertData client mlAvail true (Option.some metadata)
        parquetFiles collectionName false batchSize showProgress).2,
      e.isCreate = false ∧ e.isDrop = false ∧ e.isInsert = false) ∧
    existsAfter true finalName
      (insertData client mlAvail true (Option.some metadata) parquetFiles
        collectionName false batchSize showProgress).2 = true := by
  subst hname
  have h : insertData client mlAvail true (Option.some metadata)
      parquetFiles collectionName false batchSize showProgress
      = (Except.error (PyError.valueError ("Collection '" ++
          resolveCollectionName collectionName metadata ++
          "' already exists. Use --drop-if-exists to recreate it.")),
         [Event.hasCollection (resolveCollectionName collectionName metadata)]) := by
    rw [insertData.eq_def]
    simp [hex]
  refine ⟨h, ?_, ?_⟩
  · rw [h]
    intro e he
    have : e = Event.hasCollection (resolveCollectionName collectionName
        metadata) := by
      simpa using he
    subst this
    exact ⟨rfl, rfl, rfl⟩
  · rw [h]
    rfl

/-- Witness for C4: collection `"c"` already exists, replacement not
requested — the run errors after the existence check alone and the
collection still exists afterward. -/
theorem conflict_failfast_witness :
    insertData collectionCExistsClient true true (Option.some idMetadata)
        [("f.parquet", threeRowDf)] Option.none false 10000 true
      = (Except.error (PyError.valueError ("Collection '" ++ "c" ++
          "' already exists. Use --drop-if-exists to recreate it.")),
         [Event.hasCollection "c"]) ∧
    (∀ e ∈ (insertData collectionCExistsClient true true
        (Option.some idMetadata) [("f.parquet", threeRowDf)] Option.none
        false 10000 true).2,
      e.isCreate = false ∧ e.isDrop = false ∧ e.isInsert = false) ∧
    existsAfter true "c"
      (insertData collectionCExistsClient true true (Option.some idMetadata)
        [("f.parquet", threeRowDf)] Option.none false 10000 true).2 = true :=
  conflict_failfast collectionCExistsClient true idMetadata
    [("f.parquet", threeRowDf)] Option.none 10000 true "c" rfl rfl

/-- The index-parameter fold equals a `filterMap` of the per-field pure
derivation. -/
theorem foldl_indexParamsStep :
    ∀ (l : List FieldInfo) (acc : List IndexParamEntry),
    l.foldl indexParamsStep acc = acc ++ l.filterMap indexEntryFor := by
  intro l
  induction l with
  | nil => intro acc; simp
  | cons f rest ih =>
    intro acc
    rw [List.foldl_cons, ih, indexParamsStep]
    by_cases h1 : containsSubstr f.type "Vector"
    · have hsv : containsSubstr "SparseFloatVector" "Vector" = true := rfl
      by_cases h2 : f.type = "SparseFloatVector" <;>
        simp [indexEntryFor, h1, h2, hsv, List.filterMap_cons,
          List.append_assoc]
    · simp [indexEntryFor, h1, List.filterMap_cons]

/-- Whenever the pipeline tail runs, its trace contains the
`create_collection` call carrying the schema together with the derived
index parameters — on every subsequent branch, successful or failing. -/
theorem createCollection_mem_core_trace (client : ClientOracle)
    (mlAvail : Bool) (metadata : Metadata)
    (parquetFiles : List (String × DataFrame)) (finalName : String)
    (batchSize : Nat) (showProgress : Bool) (evs : List Event)
    (schema : Schema) (hschema : createSchema metadata = Except.ok schema) :
    Event.createCollection finalName schema (createIndexParams metadata)
      ∈ (insertDataCore client mlAvail metadata parquetFiles finalName
          batchSize showProgress evs).2 := by
  rw [insertDataCore, hschema]
  cases hce : client.createError with
  | some e => simp
  | none =>
    by_cases hie : (sortFiles parquetFiles).isEmpty
    · simp [hie]
    · cases hfl : client.flushError with
      | some e => simp [hie]
      | none =>
        cases hlo : client.loadError with
        | some e => simp [hie]
        | none => simp [hie]

/-- C8: the per-vector-field index parameters are a pure function of the
field (SPARSE_INVERTED_INDEX with metric IP and drop_ratio_build 0.2 for
sparse vectors, the AUTOINDEX default with HAMMING for binary vectors and
with L2 for every other vector type), and they are supplied to the
`create_collection` call itself — there is no separate index-creation
step. -/
theorem index_derivation_pure_and_at_creation :
    (∀ metadata : Metadata,
      createIndexParams metadata = metadata.fields.filterMap indexEntryFor) ∧
    (∀ (client : ClientOracle) (mlAvail : Bool) (metadata : Metadata)
        (parquetFiles : List (String × DataFrame))
        (collectionName : Option String) (dropIfExists : Bool)
        (batchSize : Nat) (showProgress : Bool) (schema : Schema),
      client.hasCollection (resolveCollectionName collectionName metadata)
          = false →
      createSchema metadata = Except.ok schema →
      Event.createCollection (resolveCollectionName collectionName metadata)
          schema (createIndexParams metadata)
        ∈ (insertData client mlAvail true (Option.some metadata)
            parquetFiles collectionName dropIfExists batchSize
            showProgress).2) := by
  constructor
  · intro metadata
    rw [createIndexParams, foldl_indexParamsStep]
    rfl
  · intro client mlAvail metadata parquetFiles collectionName dropIfExists
      batchSize showProgress schema hnc hschema
    rw [insertData_reaches_core client mlAvail metadata parquetFiles
      collectionName dropIfExists batchSize showProgress hnc]
    exact createCollection_mem_core_trace client mlAvail metadata
      parquetFiles _ batchSize showProgress _ schema hschema

/-- Witness for C8: the three vector kinds receive exactly the specified
index entries, and a concrete run's trace carries them on its
`create_collection` call. -/
theorem index_derivation_witness :
    createIndexParams vectorMetadata =
      [{ field_name := "s",
         index_name := Option.some "sparse_inverted_index_s",
         index_type := Option.some "SPARSE_INVERTED_INDEX",
         metric_type := "IP",
         params := [("drop_ratio_build", (1 : Rat) / 5)] },
       { field_name := "b", metric_type := "HAMMING" },
       { field_name := "v", metric_type := "L2" }] ∧
    Event.createCollection "c" vectorMetadataSchema
        (createIndexParams vectorMetadata)
      ∈ (insertData healthyClient true true (Option.some vectorMetadata)
          [("f.parquet", emptyDf)] Option.none false 10000 true).2 :=
  ⟨(index_derivation_pure_and_at_creation.1 vectorMetadata).trans rfl,
   index_derivation_pure_and_at_creation.2 healthyClient true vectorMetadata
     [("f.parquet", emptyDf)] Option.none false 10000 true
     vectorMetadataSchema rfl rfl⟩

/-- Every client call the file loops contribute is an insert call. -/
theorem expectedFilesEvents_isInsert (client : ClientOracle) (mlAvail : Bool)
    (collName : String) (metadata : Metadata) (batchSize : Nat)
    (files : List (String × DataFrame)) :
    ∀ e ∈ expectedFilesEvents client mlAvail collName metadata batchSize
      files, e.isInsert = true := by
  intro e he
  rw [expectedFilesEvents] at he
  obtain ⟨l, hl, hel⟩ := List.mem_flatten.mp he
  obtain ⟨fd, _, rfl⟩ := List.mem_map.mp hl
  rw [expectedFileEvents, expectedInsertEventsOn] at hel
  obtain ⟨i, _, hi⟩ := List.mem_filterMap.mp hel
  revert hi
  cases convertDataframeToDictList ⟨fd.2.columns, batchRowsOf fd.2 batchSize i⟩
      metadata mlAvail with
  | ok data =>
    intro hi
    have : Event.insert collName data = e := by simpa using hi
    subst this
    rfl
  | error e2 =>
    intro hi
    exact absurd hi (by simp)

/-- No branch of the pipeline tail ever emits a client close call. -/
theorem insertDataCore_no_close (client : ClientOracle) (mlAvail : Bool)
    (metadata : Metadata) (parquetFiles : List (String × DataFrame))
    (finalName : String) (batchSize : Nat) (showProgress : Bool)
    (evs : List Event) (hevs : ∀ x ∈ evs, x.isClose = false) :
    ∀ x ∈ (insertDataCore client mlAvail metadata parquetFiles finalName
      batchSize showProgress evs).2, x.isClose = false := by
  intro x hx
  rw [insertDataCore] at hx
  cases hs : createSchema metadata with
  | error e =>
    rw [hs] at hx
    exact hevs x hx
  | ok schema =>
    rw [hs] at hx
    simp only [] at hx
    have hevs1 : ∀ y ∈ evs ++ [Event.createCollection finalName schema
        (createIndexParams metadata)], y.isClose = false := by
      intro y hy
      rcases List.mem_append.mp hy with hy | hy
      · exact hevs y hy
      · have : y = Event.createCollection finalName schema
            (createIndexParams metadata) := by simpa using hy
        subst this
        rfl
    cases hce : client.createError with
    | some e =>
      rw [hce] at hx
      exact hevs1 x hx
    | none =>
      rw [hce] at hx
      by_cases hie : (sortFiles parquetFiles).isEmpty
      · rw [if_pos hie] at hx
        exact hevs1 x hx
      · rw [if_neg hie] at hx
        rw [insertAllFiles_eq] at hx
        have hmid : ∀ y ∈ (evs ++ [Event.createCollection finalName schema
            (createIndexParams metadata)])
            ++ ((BatchAcc.mk 0 [] []).events ++ expectedFilesEvents client
              mlAvail finalName metadata batchSize (sortFiles parquetFiles))
            ++ [Event.flush finalName], y.isClose = false := by
          intro y hy
          rcases List.mem_append.mp hy with hy | hy
          · rcases List.mem_append.mp hy with hy | hy
            · exact hevs1 y hy
            · rcases List.mem_append.mp hy with hy | hy
              · exact absurd hy (by simp)
              · have := expectedFilesEvents_isInsert client mlAvail
                  finalName metadata batchSize (sortFiles parquetFiles) y hy
                revert this
                cases y <;> simp [Event.isInsert, Event.isClose]
          · have : y = Event.flush finalName := by simpa using hy
            subst this
            rfl
        cases hfl : client.flushError with
        | some e =>
          rw [hfl] at hx
          exact hmid x hx
        | none =>
          rw [hfl] at hx
          cases hlo : client.loadError with
          | some e =>
            rw [hlo] at hx
            rcases List.mem_append.mp hx with hx | hx
            · exact hmid x hx
            · have : x = Event.loadCollection finalName := by simpa using hx
              subst this
              rfl
          | none =>
            rw [hlo] at hx
            rcases List.mem_append.mp hx with hx | hx
            · exact hmid x hx
            · have : x = Event.loadCollection finalName := by simpa using hx
              subst this
              rfl

/-- C9 counterexample: on the fatal validation failure "data path missing"
the run performs no client call at all — in particular it performs no
connection release before the error propagates, contradicting the claim
that the connection is released on every exit path of the call. -/
theorem connection_release_counterexample :
    (insertData healthyClient true false Option.none [] Option.none false
        10000 true).2 = [] ∧
    (insertData healthyClient true false Option.none [] Option.none false
        10000 true).1
      = Except.error (PyError.fileNotFound "Data path not found") :=
  ⟨rfl, rfl⟩

/-- C9 amended: `insert_data` releases nothing on any exit path — no run,
normal or failing, contains a client close call in its trace; the
connection (acquired once at inserter construction) is released only when
the caller separately invokes `close`, which performs exactly the one
close call. -/
theorem connection_released_only_by_close :
    (∀ (client : ClientOracle) (mlAvail dataPathExists : Bool)
        (metaJson : Option Metadata)
        (parquetFiles : List (String × DataFrame))
        (collectionName : Option String) (dropIfExists : Bool)
        (batchSize : Nat) (showProgress : Bool),
      ∀ x ∈ (insertData client mlAvail dataPathExists metaJson parquetFiles
        collectionName dropIfExists batchSize showProgress).2,
        x.isClose = false) ∧
    closeMethod = [Event.closeClient] := by
  refine ⟨?_, rfl⟩
  intro client mlAvail dataPathExists metaJson parquetFiles collectionName
    dropIfExists batchSize showProgress x hx
  rw [insertData.eq_def] at hx
  cases dataPathExists with
  | false => simp at hx
  | true =>
    cases metaJson with
    | none => simp at hx
    | some metadata =>
      simp only [Bool.not_true, Bool.false_eq_true, if_false] at hx
      by_cases hc : client.hasCollection
          (resolveCollectionName collectionName metadata) = true
      · rw [if_pos hc] at hx
        cases dropIfExists with
        | true =>
          simp only [if_true] at hx
          refine insertDataCore_no_close client mlAvail metadata
            parquetFiles _ batchSize showProgress _ ?_ x hx
          intro y hy
          rcases List.mem_cons.mp hy with hy | hy
          · subst hy; rfl
          · have : y = Event.dropCollection
                (resolveCollectionName collectionName metadata) := by
              simpa using hy
            subst this; rfl
        | false =>
          simp only [Bool.false_eq_true, if_false] at hx
          have : x = Event.hasCollection
              (resolveCollectionName collectionName metadata) := by
            simpa using hx
          subst this; rfl
      · rw [if_neg hc] at hx
        refine insertDataCore_no_close client mlAvail metadata parquetFiles
          _ batchSize showProgress _ ?_ x hx
        intro y hy
        have : y = Event.hasCollection
            (resolveCollectionName collectionName metadata) := by
          simpa using hy
        subst this; rfl

/-- Witness for C9's amended claim at a concrete run: the first event of
that run's trace is not a close call (no event of any run is). -/
theorem connection_released_only_by_close_witness :
    (Event.hasCollection "c").isClose = false :=
  connection_released_only_by_close.1 healthyClient true true
    (Option.some idMetadata) [] Option.none false 10000 true
    (Event.hasCollection "c")
    (by
      have h : (insertData healthyClient true true (Option.some idMetadata)
          [] Option.none false 10000 true).2
          = [Event.hasCollection "c",
             Event.createCollection "c"
               { enable_dynamic_field := true,
                 fields := [{ field_name := "id",
                              datatype := DataType.INT64,
                              is_primary := true }] } []] := rfl
      rw [h]
      exact List.mem_cons_self _ _)

end MilvusInserter
